import Mathlib

/-!
# Remember-me tokens of authboss (`remember/remember.go`)

A shallow embedding of the `remember` module: token issuance (`Remember.New`),
token verification (`Remember.Auth`) and the post-authentication callback
(`Remember.AfterAuth`), together with the library routines they call
(`encoding/base64`, `crypto/md5`, `bytes.IndexByte`), followed by the theorems
that settle the claims C1 to C10 of the specification.

Go strings and byte slices are sequences of bytes, so both are lists of `UInt8`.
A Go `error` is an `Option GoError`, `none` being `nil`.
-/

set_option autoImplicit false
set_option maxRecDepth 8192

/-- A Go `string` (and a `[]byte`): a finite sequence of bytes. -/
abbrev GoString := List UInt8

/-- The bytes of a Go string literal (Go source text is UTF-8). -/
def goStr (s : String) : GoString :=
  s.toList.flatMap String.utf8EncodeChar

/-- Values of the Go `error` interface that occur around the remember module.
`ErrTokenNotFound` is the sentinel `authboss.ErrTokenNotFound`, told apart from
every other error by identity; `New` is `errors.New`; `CorruptInputError` is
the error type of `encoding/base64`; `Errorf` is `fmt.Errorf` with one `%v`. -/
inductive GoError where
  | ErrTokenNotFound
  | New (text : String)
  | CorruptInputError (offset : Nat)
  | Errorf (format : String) (arg : GoError)
  deriving DecidableEq, Repr

/-! ## `bytes` and slice primitives -/

namespace bytes

/-- Go `bytes.IndexByte`: index of the first `c` in `b`, or `-1`. -/
def IndexByte (b : List UInt8) (c : UInt8) : Int :=
  if c ∈ b then (b.indexOf c : Nat) else -1

end bytes

/-- Go `make([]byte, n)`: `n` zero bytes. -/
def makeBytes (n : Nat) : List UInt8 := List.replicate n 0

/-- Go `copy(dst, src)`: the first `min (len dst) (len src)` bytes of `dst`
are overwritten with those of `src`. The result is the new content of `dst`. -/
def copy (dst src : List UInt8) : List UInt8 :=
  src.take dst.length ++ dst.drop src.length

/-- Go `b[i] = c` on a slice. -/
def setByte (b : List UInt8) (i : Nat) (c : UInt8) : List UInt8 := b.set i c

/-! ## `encoding/base64` -/

namespace base64

/-- The alphabet of `base64.StdEncoding`. -/
def encodeStd : List UInt8 :=
  goStr "ABCDEFGHIJKLMNOPQRSTUVWXYZabcdefghijklmnopqrstuvwxyz0123456789+/"

/-- The alphabet of `base64.URLEncoding`. -/
def encodeURL : List UInt8 :=
  goStr "ABCDEFGHIJKLMNOPQRSTUVWXYZabcdefghijklmnopqrstuvwxyz0123456789-_"

/-- The padding character `=` (`StdPadding`). -/
def padChar : UInt8 := 61

/-- An `Encoding`: its 64-character alphabet (both encodings used here pad
with `=` and are not strict). -/
structure Encoding where
  encode : List UInt8

/-- The table `enc.encode[i]`. -/
def Encoding.enc (e : Encoding) (i : Nat) : UInt8 := e.encode.getD i 0

/-- The table `enc.decodeMap[c]`: the index of `c` in the alphabet, `0xff`
for a byte outside it. -/
def Encoding.decodeMap (e : Encoding) (c : UInt8) : UInt8 :=
  if c ∈ e.encode then UInt8.ofNat (e.encode.indexOf c) else 0xff

def StdEncoding : Encoding := ⟨encodeStd⟩

def URLEncoding : Encoding := ⟨encodeURL⟩

/-- Go `Encoding.Encode`: three input bytes make four characters, and a last
group of one or two bytes is padded with `=`. -/
def Encoding.Encode (e : Encoding) : List UInt8 → List UInt8
  | a :: b :: c :: rest =>
    let val := a.toNat <<< 16 ||| b.toNat <<< 8 ||| c.toNat
    e.enc (val >>> 18 &&& 0x3F) :: e.enc (val >>> 12 &&& 0x3F) ::
      e.enc (val >>> 6 &&& 0x3F) :: e.enc (val &&& 0x3F) :: Encoding.Encode e rest
  | [a, b] =>
    let val := a.toNat <<< 16 ||| b.toNat <<< 8
    [e.enc (val >>> 18 &&& 0x3F), e.enc (val >>> 12 &&& 0x3F),
      e.enc (val >>> 6 &&& 0x3F), padChar]
  | [a] =>
    let val := a.toNat <<< 16
    [e.enc (val >>> 18 &&& 0x3F), e.enc (val >>> 12 &&& 0x3F), padChar, padChar]
  | [] => []

/-- Go `Encoding.EncodeToString`. -/
def Encoding.EncodeToString (e : Encoding) (src : List UInt8) : GoString :=
  e.Encode src

/-- The end of `decodeQuantum`: the collected 6-bit values `dbuf` (at most
four, missing ones zero) are packed into 24 bits and the first `dlen - 1`
bytes of them are written, `dlen` being the number of values collected. -/
def quantum (dbuf : List UInt8) : List UInt8 :=
  let val := (dbuf.getD 0 0).toNat <<< 18 ||| (dbuf.getD 1 0).toNat <<< 12 |||
    (dbuf.getD 2 0).toNat <<< 6 ||| (dbuf.getD 3 0).toNat
  [UInt8.ofNat (val >>> 16), UInt8.ofNat (val >>> 8), UInt8.ofNat val].take (dbuf.length - 1)

/-- The loops `for si < len(src) && (src[si] == '\n' || src[si] == '\r')`:
the rest of the input after the newlines, and the new `si`. -/
def skipNewlines : List UInt8 → Nat → List UInt8 × Nat
  | c :: cs, si => if c = 10 ∨ c = 13 then skipNewlines cs (si + 1) else (c :: cs, si)
  | [], si => ([], si)

/-- Go `Encoding.Decode` (with `decodeQuantum`) for a padded, non-strict
encoding. The first argument is the input still to read, `si` its offset in
the source, `srcLen` the length of the source and `dbuf` the 6-bit values
collected for the current quantum. Newline and carriage-return bytes are
skipped, every other byte outside the alphabet but `=` is an error, and the
input has to end on a whole quantum, padded with `=` when short. -/
def decodeLoop (e : Encoding) (srcLen : Nat) :
    List UInt8 → Nat → List UInt8 → Except GoError (List UInt8)
  | [], si, dbuf =>
    if dbuf.length = 0 then .ok [] else .error (.CorruptInputError (si - dbuf.length))
  | c :: cs, si, dbuf =>
    let out := e.decodeMap c
    if out ≠ 0xff then
      if dbuf.length = 3 then
        match decodeLoop e srcLen cs (si + 1) [] with
        | .ok rest => .ok (quantum (dbuf ++ [out]) ++ rest)
        | .error err => .error err
      else decodeLoop e srcLen cs (si + 1) (dbuf ++ [out])
    else if c = 10 ∨ c = 13 then decodeLoop e srcLen cs (si + 1) dbuf
    else if c ≠ padChar then .error (.CorruptInputError si)
    else if dbuf.length < 2 then .error (.CorruptInputError si)
    else if dbuf.length = 2 then
      match skipNewlines cs (si + 1) with
      | ([], _) => .error (.CorruptInputError srcLen)
      | (d :: ds, si1) =>
        if d ≠ padChar then .error (.CorruptInputError (si1 - 1))
        else
          match skipNewlines ds (si1 + 1) with
          | ([], _) => .ok (quantum dbuf)
          | (_ :: _, si2) => .error (.CorruptInputError si2)
    else
      match skipNewlines cs (si + 1) with
      | ([], _) => .ok (quantum dbuf)
      | (_ :: _, si2) => .error (.CorruptInputError si2)

/-- Go `Encoding.DecodeString`; only the bytes of a successful decoding are
kept, as every caller here drops them on an error. -/
def Encoding.DecodeString (e : Encoding) (s : GoString) : Except GoError (List UInt8) :=
  decodeLoop e s.length s 0 []

end base64

/-! ## `crypto/md5` -/

namespace md5

/-- The per-round left-rotation amounts of MD5. -/
def shifts : List Nat :=
  [7, 12, 17, 22, 7, 12, 17, 22, 7, 12, 17, 22, 7, 12, 17, 22,
   5, 9, 14, 20, 5, 9, 14, 20, 5, 9, 14, 20, 5, 9, 14, 20,
   4, 11, 16, 23, 4, 11, 16, 23, 4, 11, 16, 23, 4, 11, 16, 23,
   6, 10, 15, 21, 6, 10, 15, 21, 6, 10, 15, 21, 6, 10, 15, 21]

/-- The sine-derived round constants of MD5. -/
def table : List Nat :=
  [0xd76aa478, 0xe8c7b756, 0x242070db, 0xc1bdceee, 0xf57c0faf, 0x4787c62a, 0xa8304613, 0xfd469501,
   0x698098d8, 0x8b44f7af, 0xffff5bb1, 0x895cd7be, 0x6b901122, 0xfd987193, 0xa679438e, 0x49b40821,
   0xf61e2562, 0xc040b340, 0x265e5a51, 0xe9b6c7aa, 0xd62f105d, 0x02441453, 0xd8a1e681, 0xe7d3fbc8,
   0x21e1cde6, 0xc33707d6, 0xf4d50d87, 0x455a14ed, 0xa9e3e905, 0xfcefa3f8, 0x676f02d9, 0x8d2a4c8a,
   0xfffa3942, 0x8771f681, 0x6d9d6122, 0xfde5380c, 0xa4beea44, 0x4bdecfa9, 0xf6bb4b60, 0xbebfbc70,
   0x289b7ec6, 0xeaa127fa, 0xd4ef3085, 0x04881d05, 0xd9d4d039, 0xe6db99e5, 0x1fa27cf8, 0xc4ac5665,
   0xf4292244, 0x432aff97, 0xab9423a7, 0xfc93a039, 0x655b59c3, 0x8f0ccc92, 0xffeff47d, 0x85845dd1,
   0x6fa87e4f, 0xfe2ce6e0, 0xa3014314, 0x4e0811a1, 0xf7537e82, 0xbd3af235, 0x2ad7d2bb, 0xeb86d391]

/-- 32-bit left rotation. -/
def rotl (x s : Nat) : Nat :=
  ((x <<< s) ||| (x >>> (32 - s))) % 2 ^ 32

/-- 32-bit complement. -/
def not32 (x : Nat) : Nat := 2 ^ 32 - 1 - x % 2 ^ 32

/-- The little-endian value of a byte sequence. -/
def leValue : List UInt8 → Nat
  | [] => 0
  | b :: bs => b.toNat + 256 * leValue bs

/-- The `n` little-endian bytes of `x`. -/
def leBytes : Nat → Nat → List UInt8
  | 0, _ => []
  | n + 1, x => UInt8.ofNat (x % 256) :: leBytes n (x / 256)

/-- The message followed by the MD5 padding: a `0x80` byte, zero bytes up to
56 modulo 64, and the bit length as 8 little-endian bytes. -/
def pad (msg : List UInt8) : List UInt8 :=
  msg ++ [0x80] ++ List.replicate ((119 - msg.length % 64) % 64) 0 ++
    leBytes 8 ((8 * msg.length) % 2 ^ 64)

/-- One of the 64 steps of the block function on the state `(a, b, c, d)`. -/
def step (m : List Nat) (st : Nat × Nat × Nat × Nat) (i : Nat) : Nat × Nat × Nat × Nat :=
  let (a, b, c, d) := st
  let f :=
    if i < 16 then (b &&& c) ||| (not32 b &&& d)
    else if i < 32 then (d &&& b) ||| (not32 d &&& c)
    else if i < 48 then b ^^^ c ^^^ d
    else c ^^^ (b ||| not32 d)
  let g :=
    if i < 16 then i
    else if i < 32 then (5 * i + 1) % 16
    else if i < 48 then (3 * i + 5) % 16
    else (7 * i) % 16
  let f1 := (f + a + table.getD i 0 + m.getD g 0) % 2 ^ 32
  (d, (b + rotl f1 (shifts.getD i 0)) % 2 ^ 32, b, c)

/-- The block function: the state after absorbing one 64-byte block. -/
def block (st : Nat × Nat × Nat × Nat) (blk : List UInt8) : Nat × Nat × Nat × Nat :=
  let m := (List.range 16).map fun j => leValue ((blk.drop (4 * j)).take 4)
  let (a, b, c, d) := (List.range 64).foldl (step m) st
  ((st.1 + a) % 2 ^ 32, (st.2.1 + b) % 2 ^ 32, (st.2.2.1 + c) % 2 ^ 32, (st.2.2.2 + d) % 2 ^ 32)

/-- Go `md5.Sum`: the 16-byte MD5 digest of `data`. -/
def Sum (data : List UInt8) : List UInt8 :=
  let p := pad data
  let (a, b, c, d) := (List.range (p.length / 64)).foldl
    (fun st k => block st ((p.drop (64 * k)).take 64))
    (0x67452301, 0xefcdab89, 0x98badcfe, 0x10325476)
  leBytes 4 a ++ leBytes 4 b ++ leBytes 4 c ++ leBytes 4 d

end md5

/-! ## The collaborators of the remember module (package `authboss`) -/

/-- Modelled from the spec: the interface `authboss.TokenStorer` (declared
outside `remember.go`), the storage capability `addToken(ownerKey, verifier)
-> error` and `useToken(ownerKey, verifier) -> (matchedOwnerKey, error)`, over
a backend with states `σ`. -/
structure TokenStorer (σ : Type) where
  AddToken : σ → GoString → GoString → σ × Option GoError
  UseToken : σ → GoString → GoString → σ × (GoString × Option GoError)

/-- A call made on the `TokenStorer`, with its arguments. -/
inductive StorerCall where
  | AddToken (key token : GoString)
  | UseToken (givenKey token : GoString)
  deriving DecidableEq, Repr

/-- Modelled from the spec: the interface `authboss.ClientStorer` (declared
outside `remember.go`), the client-side storage capability `put(key, value)`,
`get(key) -> (value, found)`. Its content is the sequence of `Put` calls it
received, oldest first. -/
structure ClientStorer where
  puts : List (GoString × GoString)
  deriving DecidableEq, Repr

/-- The method `Put(key, value)`. -/
def ClientStorer.Put (c : ClientStorer) (key value : GoString) : ClientStorer :=
  ⟨c.puts ++ [(key, value)]⟩

/-- The method `Get(key)`: the value of the latest `Put` under `key`. -/
def ClientStorer.Get (c : ClientStorer) (key : GoString) : GoString × Bool :=
  match c.puts.reverse.find? (fun p => p.1 == key) with
  | some p => (p.2, true)
  | none => ([], false)

/-- What `remember.go` reads from package `authboss`: the configured storer
`Cfg.Storer` (one that implements `TokenStorer`, which `Initialize` checks),
`Cfg.PrimaryID`, and the constants `SessionKey` and `SessionHalfAuthKey`. -/
structure Authboss (σ : Type) where
  Storer : TokenStorer σ
  PrimaryID : GoString
  SessionKey : GoString
  SessionHalfAuthKey : GoString

/-- The state behind `Cfg.Storer`: the backend state and the calls made on
the storer so far, oldest first. -/
structure Backend (σ : Type) where
  db : σ
  calls : List StorerCall

/-- The user attributes `ctx.User`, seen through the method `StringErr`. -/
structure Attributes where
  StringErr : GoString → GoString × Option GoError

/-- The parts of `authboss.Context` that `AfterAuth` reads: the method
`FirstPostFormValue`, the field `User` (`none` for `nil`) and the field
`CookieStorer`. -/
structure Context where
  FirstPostFormValue : GoString → GoString × Bool
  User : Option Attributes
  CookieStorer : ClientStorer

/-! ## `remember.go` -/

namespace Remember

/-- `RememberKey` is used for cookies and form input names. -/
def RememberKey : GoString := goStr "rm"

def errUserMissing : GoError := .New "remember: User not loaded in callback"

def nRandBytes : Nat := 32

/-- The delimiter byte `;`. -/
def delim : UInt8 := 59

/-- The buffer `token` of `New` before `rand.Read` is called: allocated,
the storage key copied in, the delimiter written after it. -/
def tokenBuffer (storageKey : GoString) : List UInt8 :=
  let token := makeBytes (nRandBytes + storageKey.length + 1)
  let token := copy token storageKey
  setByte token storageKey.length delim

/-- The verifier of a token buffer, the value kept server-side: the standard
base64 text of its MD5 digest (the value `storageToken` of `New`, and the
second argument of `UseToken` in `Auth`). -/
def verifierOf (token : List UInt8) : GoString :=
  base64.StdEncoding.EncodeToString (md5.Sum token)

/-- What a run of `New` leaves behind and returns. -/
structure NewResult (σ : Type) where
  backend : Backend σ
  cstorer : ClientStorer
  ret : GoString × Option GoError

/-- `Remember.New`. The argument `rnd` is the outcome of the call
`rand.Read(token[len(storageKey)+1:])`: an error, or the bytes the random
source wrote into that slice. -/
def New {σ : Type} (cfg : Authboss σ) (rnd : Except GoError (List UInt8))
    (bk : Backend σ) (cstorer : ClientStorer) (storageKey : GoString) : NewResult σ :=
  let token := tokenBuffer storageKey
  match rnd with
  | .error err => ⟨bk, cstorer, ([], some err)⟩
  | .ok r =>
    let token := token.take (storageKey.length + 1) ++ copy (token.drop (storageKey.length + 1)) r
    let sum := md5.Sum token
    let finalToken := base64.URLEncoding.EncodeToString token
    let storageToken := base64.StdEncoding.EncodeToString sum
    -- Save the token in the DB
    let (db, err) := cfg.Storer.AddToken bk.db storageKey storageToken
    let bk : Backend σ := ⟨db, bk.calls ++ [.AddToken storageKey storageToken]⟩
    match err with
    | some err => ⟨bk, cstorer, ([], some err)⟩
    | none =>
      -- Write the finalToken to the cookie
      let cstorer := cstorer.Put RememberKey finalToken
      ⟨bk, cstorer, (finalToken, none)⟩

/-- What a run of `Auth` leaves behind and returns. -/
structure AuthResult (σ : Type) where
  backend : Backend σ
  cstorer : ClientStorer
  sstorer : ClientStorer
  ret : GoString × Option GoError

/-- `Remember.Auth`. -/
def Auth {σ : Type} (cfg : Authboss σ) (bk : Backend σ)
    (cstorer sstorer : ClientStorer) (finalToken : GoString) : AuthResult σ :=
  match base64.URLEncoding.DecodeString finalToken with
  | .error err => ⟨bk, cstorer, sstorer, ([], some err)⟩
  | .ok token =>
    let index := bytes.IndexByte token delim
    if index < 0 then
      ⟨bk, cstorer, sstorer, ([], some (.New "remember: Invalid remember me token."))⟩
    else
      -- Get the key.
      let givenKey := token.take index.toNat
      -- Verify the tokens match.
      let sum := md5.Sum token
      let verifier := base64.StdEncoding.EncodeToString sum
      let (db, key, err) := cfg.Storer.UseToken bk.db givenKey verifier
      let bk : Backend σ := ⟨db, bk.calls ++ [.UseToken givenKey verifier]⟩
      if err = some .ErrTokenNotFound then ⟨bk, cstorer, sstorer, ([], none)⟩
      else
        match err with
        | some err => ⟨bk, cstorer, sstorer, ([], some err)⟩
        | none =>
          -- Ensure a half-auth.
          let sstorer := sstorer.Put cfg.SessionHalfAuthKey (goStr "true")
          -- Log the user in.
          let sstorer := sstorer.Put cfg.SessionKey key
          ⟨bk, cstorer, sstorer, (key, none)⟩

/-- What a run of `AfterAuth` leaves behind and returns. -/
structure AfterAuthResult (σ : Type) where
  backend : Backend σ
  cstorer : ClientStorer
  ret : Option GoError

/-- `Remember.AfterAuth`, called after authentication is successful. The
argument `rnd` is the outcome of the call of `rand.Read` that `New` makes. -/
def AfterAuth {σ : Type} (cfg : Authboss σ) (rnd : Except GoError (List UInt8))
    (bk : Backend σ) (ctx : Context) : AfterAuthResult σ :=
  let (val, ok) := ctx.FirstPostFormValue RememberKey
  if !ok || val ≠ goStr "true" then ⟨bk, ctx.CookieStorer, none⟩
  else
    match ctx.User with
    | none => ⟨bk, ctx.CookieStorer, some errUserMissing⟩
    | some user =>
      let (key, err) := user.StringErr cfg.PrimaryID
      match err with
      | some err => ⟨bk, ctx.CookieStorer, some err⟩
      | none =>
        let res := New cfg rnd bk ctx.CookieStorer key
        match res.ret.2 with
        | some err =>
          ⟨res.backend, res.cstorer,
            some (.Errorf "remember: Failed to create remember token: %v" err)⟩
        | none => ⟨res.backend, res.cstorer, none⟩

/-- The returns of `Auth` called on the artifacts `arts` one after the other,
each call starting from the storers and the backend the previous one left. -/
def AuthAll {σ : Type} (cfg : Authboss σ) :
    Backend σ → ClientStorer → ClientStorer → List GoString → List (GoString × Option GoError)
  | _, _, _, [] => []
  | bk, cstorer, sstorer, art :: arts =>
    (Auth cfg bk cstorer sstorer art).ret ::
      AuthAll cfg (Auth cfg bk cstorer sstorer art).backend (Auth cfg bk cstorer sstorer art).cstorer
        (Auth cfg bk cstorer sstorer art).sstorer arts

end Remember

/-- Modelled from the spec: a `TokenStorer` that records the `AddToken(key,
verifier)` pairs and whose `UseToken(key, verifier)` returns `key` and deletes
the pair when it is present, and returns `ErrTokenNotFound` otherwise. One
record is kept per `AddToken` call and one record is deleted per use. -/
def singleUseStorer : TokenStorer (List (GoString × GoString)) where
  AddToken db key token := (db ++ [(key, token)], none)
  UseToken db givenKey token :=
    if (givenKey, token) ∈ db then (db.erase (givenKey, token), (givenKey, none))
    else (db, ([], some .ErrTokenNotFound))

/-- A `TokenStorer` without state whose `UseToken` always reports
`ErrTokenNotFound`. -/
def notFoundStorer : TokenStorer Unit where
  AddToken db _ _ := (db, none)
  UseToken db _ _ := (db, ([], some .ErrTokenNotFound))

/-- A `TokenStorer` without state whose `UseToken` accepts every pair and
always reports the same owner, `owner`, whatever key it was given (a backend
that resolves tokens to a canonical account name). -/
def fixedOwnerStorer (owner : GoString) : TokenStorer Unit where
  AddToken db _ _ := (db, none)
  UseToken db _ _ := (db, (owner, none))

/-- A `TokenStorer` without state whose two methods always fail with `err`. -/
def failingStorer (err : GoError) : TokenStorer Unit where
  AddToken db _ _ := (db, some err)
  UseToken db _ _ := (db, ([], some err))

/-- A configuration around a storer, with the primary ID `username` and the
session keys `uid` and `halfauth`. -/
def sampleCfg {σ : Type} (s : TokenStorer σ) : Authboss σ :=
  ⟨s, goStr "username", goStr "uid", goStr "halfauth"⟩

/-- A backend on which no call has been made yet. -/
def freshBackend {σ : Type} (db : σ) : Backend σ := ⟨db, []⟩

/-- A client storer that received no `Put` yet. -/
def emptyStorer : ClientStorer := ⟨[]⟩

/-! ## Conformance of the library models

The MD5 test suite of RFC 1321 and the base64 test vectors of RFC 4648. -/

theorem md5_Sum_empty :
    md5.Sum (goStr "") = [0xd4, 0x1d, 0x8c, 0xd9, 0x8f, 0x00, 0xb2, 0x04,
      0xe9, 0x80, 0x09, 0x98, 0xec, 0xf8, 0x42, 0x7e] := by decide

theorem md5_Sum_abc :
    md5.Sum (goStr "abc") = [0x90, 0x01, 0x50, 0x98, 0x3c, 0xd2, 0x4f, 0xb0,
      0xd6, 0x96, 0x3f, 0x7d, 0x28, 0xe1, 0x7f, 0x72] := by decide

theorem md5_Sum_digits :
    md5.Sum (goStr ("1234567890123456789012345678901234567890" ++
      "1234567890123456789012345678901234567890")) =
      [0x57, 0xed, 0xf4, 0xa2, 0x2b, 0xe3, 0xc9, 0x55, 0xac, 0x49, 0xda, 0x2e, 0x21, 0x07,
        0xb6, 0x7a] := by decide

theorem StdEncoding_foobar :
    base64.StdEncoding.EncodeToString (goStr "foobar") = goStr "Zm9vYmFy" ∧
    base64.StdEncoding.EncodeToString (goStr "fooba") = goStr "Zm9vYmE=" ∧
    base64.StdEncoding.EncodeToString (goStr "foob") = goStr "Zm9vYg==" := by decide

theorem URLEncoding_decode_examples :
    base64.URLEncoding.DecodeString (goStr "Zm9vYmFy") = .ok (goStr "foobar") ∧
    base64.URLEncoding.DecodeString (goStr "Zm9v\nYmE=\n") = .ok (goStr "fooba") ∧
    base64.URLEncoding.DecodeString (goStr "Zm9vYg==") = .ok (goStr "foob") ∧
    base64.URLEncoding.DecodeString (goStr "Zm9vYg=") = .error (.CorruptInputError 7) ∧
    base64.URLEncoding.DecodeString (goStr "Zm9vYg") = .error (.CorruptInputError 4) ∧
    base64.URLEncoding.DecodeString (goStr "Zm9v+mFy") = .error (.CorruptInputError 4) :=
  ⟨rfl, rfl, rfl, rfl, rfl, rfl⟩

/-- The verifier stored for the token of `alice` with 32 zero bytes. -/
theorem verifierOf_alice :
    Remember.verifierOf (goStr "alice;" ++ List.replicate 32 0) =
      goStr "4d+Z4oiii9efwlB6wI3YSw==" := by decide

/-! ## Facts about the library routines -/

namespace base64

theorem and_63 (x : Nat) : x &&& 63 = x % 64 :=
  Nat.and_pow_two_sub_one_eq_mod x 6

theorem shl_or (x y k : Nat) (h : y < 2 ^ k) : x <<< k ||| y = x * 2 ^ k + y := by
  rw [Nat.shiftLeft_eq, Nat.mul_comm x, Nat.mul_add_lt_is_or h]

theorem pack3 (a b c : Nat) (hb : b < 256) (hc : c < 256) :
    a <<< 16 ||| b <<< 8 ||| c = a * 65536 + b * 256 + c := by
  have h1 : a <<< 16 ||| b <<< 8 = (a * 256 + b) <<< 8 := by
    rw [shl_or a (b <<< 8) 16 (by rw [Nat.shiftLeft_eq]; omega)]
    simp only [Nat.shiftLeft_eq]; omega
  rw [h1, shl_or _ c 8 (by omega)]; omega

theorem pack4 (w x y z : Nat) (hx : x < 64) (hy : y < 64) (hz : z < 64) :
    w <<< 18 ||| x <<< 12 ||| y <<< 6 ||| z = w * 262144 + x * 4096 + y * 64 + z := by
  have h1 : w <<< 18 ||| x <<< 12 = (w * 64 + x) <<< 12 := by
    rw [shl_or w (x <<< 12) 18 (by rw [Nat.shiftLeft_eq]; omega)]
    simp only [Nat.shiftLeft_eq]; omega
  have h2 : (w * 64 + x) <<< 12 ||| y <<< 6 = (w * 4096 + x * 64 + y) <<< 6 := by
    rw [shl_or _ (y <<< 6) 12 (by rw [Nat.shiftLeft_eq]; omega)]
    simp only [Nat.shiftLeft_eq]; omega
  rw [h1, h2, shl_or _ z 6 (by omega)]; omega

theorem decodeMap_enc_URL : ∀ i, i < 64 →
    URLEncoding.decodeMap (URLEncoding.enc i) = UInt8.ofNat i := by
  decide

theorem decodeMap_pad_URL : URLEncoding.decodeMap padChar = 0xff := by decide

theorem ofNat_ne_ff (i : Nat) (h : i < 64) : UInt8.ofNat i ≠ 0xff := by
  intro hc
  have := congrArg UInt8.toNat hc
  rw [UInt8.toNat_ofNat_of_lt (by simp [UInt8.size]; omega)] at this
  have h2 : (0xff : UInt8).toNat = 255 := by decide
  omega

theorem toNat_ofNat_small (i : Nat) (h : i < 256) : (UInt8.ofNat i).toNat = i :=
  UInt8.toNat_ofNat_of_lt (by simp [UInt8.size]; omega)

theorem ofNat_eq_of_mod (n : Nat) (a : UInt8) (h : n % 256 = a.toNat) : UInt8.ofNat n = a := by
  apply UInt8.toNat.inj
  rw [← h]; simp [UInt8.ofNat, UInt8.toNat]

/-- Reading one alphabet character: it joins the current quantum, which is
written out when it is the fourth. -/
theorem decodeLoop_enc (n i : Nat) (hi : i < 64) (cs : List UInt8) (si : Nat)
    (dbuf : List UInt8) :
    decodeLoop URLEncoding n (URLEncoding.enc i :: cs) si dbuf =
      if dbuf.length = 3 then
        match decodeLoop URLEncoding n cs (si + 1) [] with
        | .ok rest => .ok (quantum (dbuf ++ [UInt8.ofNat i]) ++ rest)
        | .error err => .error err
      else decodeLoop URLEncoding n cs (si + 1) (dbuf ++ [UInt8.ofNat i]) := by
  rw [decodeLoop]
  simp only [decodeMap_enc_URL i hi, ofNat_ne_ff i hi, ne_eq, not_false_eq_true, if_true]

theorem quantum4 (a b c : UInt8) :
    quantum [UInt8.ofNat ((a.toNat <<< 16 ||| b.toNat <<< 8 ||| c.toNat) >>> 18 &&& 0x3F),
      UInt8.ofNat ((a.toNat <<< 16 ||| b.toNat <<< 8 ||| c.toNat) >>> 12 &&& 0x3F),
      UInt8.ofNat ((a.toNat <<< 16 ||| b.toNat <<< 8 ||| c.toNat) >>> 6 &&& 0x3F),
      UInt8.ofNat ((a.toNat <<< 16 ||| b.toNat <<< 8 ||| c.toNat) &&& 0x3F)] = [a, b, c] := by
  have ha := a.toNat_lt_size
  have hb := b.toNat_lt_size
  have hc := c.toNat_lt_size
  simp only [UInt8.size] at ha hb hc
  simp only [quantum, List.getD_cons_zero, List.getD_cons_succ, List.length_cons, List.length_nil]
  rw [pack3 _ _ _ hb hc]
  simp only [and_63, Nat.shiftRight_eq_div_pow]
  rw [toNat_ofNat_small _ (by omega), toNat_ofNat_small _ (by omega),
    toNat_ofNat_small _ (by omega), toNat_ofNat_small _ (by omega)]
  rw [pack4 _ _ _ _ (by omega) (by omega) (by omega)]
  show [UInt8.ofNat _, UInt8.ofNat _, UInt8.ofNat _] = [a, b, c]
  simp only [List.cons.injEq, and_true]
  refine ⟨ofNat_eq_of_mod _ _ ?_, ofNat_eq_of_mod _ _ ?_, ofNat_eq_of_mod _ _ ?_⟩ <;> omega

theorem quantum3 (a b : UInt8) :
    quantum [UInt8.ofNat ((a.toNat <<< 16 ||| b.toNat <<< 8) >>> 18 &&& 0x3F),
      UInt8.ofNat ((a.toNat <<< 16 ||| b.toNat <<< 8) >>> 12 &&& 0x3F),
      UInt8.ofNat ((a.toNat <<< 16 ||| b.toNat <<< 8) >>> 6 &&& 0x3F)] = [a, b] := by
  have ha := a.toNat_lt_size
  have hb := b.toNat_lt_size
  simp only [UInt8.size] at ha hb
  have hv : a.toNat <<< 16 ||| b.toNat <<< 8 = a.toNat * 65536 + b.toNat * 256 := by
    have := pack3 a.toNat b.toNat 0 hb (by omega)
    simpa using this
  simp only [quantum, List.getD_cons_zero, List.getD_cons_succ, List.length_cons, List.length_nil,
    List.getD_nil, UInt8.toNat_zero]
  rw [hv]
  simp only [and_63, Nat.shiftRight_eq_div_pow]
  rw [toNat_ofNat_small _ (by omega), toNat_ofNat_small _ (by omega),
    toNat_ofNat_small _ (by omega)]
  rw [pack4 _ _ _ _ (by omega) (by omega) (by omega)]
  show [UInt8.ofNat _, UInt8.ofNat _] = [a, b]
  simp only [List.cons.injEq, and_true]
  refine ⟨ofNat_eq_of_mod _ _ ?_, ofNat_eq_of_mod _ _ ?_⟩ <;> omega

theorem quantum2 (a : UInt8) :
    quantum [UInt8.ofNat ((a.toNat <<< 16) >>> 18 &&& 0x3F),
      UInt8.ofNat ((a.toNat <<< 16) >>> 12 &&& 0x3F)] = [a] := by
  have ha := a.toNat_lt_size
  simp only [UInt8.size] at ha
  simp only [quantum, List.getD_cons_zero, List.getD_cons_succ, List.length_cons, List.length_nil,
    List.getD_nil, UInt8.toNat_zero]
  simp only [and_63, Nat.shiftRight_eq_div_pow, Nat.shiftLeft_eq]
  rw [toNat_ofNat_small _ (by omega), toNat_ofNat_small _ (by omega)]
  have h0 : (0 : Nat) <<< 6 = 0 := by simp
  have hp := pack4 (a.toNat * 2 ^ 16 / 2 ^ 18 % 64) (a.toNat * 2 ^ 16 / 2 ^ 12 % 64) 0 0
    (by omega) (by omega) (by omega)
  simp only [Nat.shiftLeft_eq, Nat.zero_mul, Nat.or_zero] at hp
  simp only [Nat.zero_mul, Nat.or_zero]
  rw [hp]
  show [UInt8.ofNat _] = [a]
  simp only [List.cons.injEq, and_true]
  refine ofNat_eq_of_mod _ _ ?_
  omega

/-- Reading the padding that closes a quantum of three characters. -/
theorem decodeLoop_pad3 (n si : Nat) (d0 d1 d2 : UInt8) :
    decodeLoop URLEncoding n [padChar] si [d0, d1, d2] = .ok (quantum [d0, d1, d2]) := by
  have hnl : ¬(padChar = 10 ∨ padChar = 13) := by decide
  rw [decodeLoop]
  simp [decodeMap_pad_URL, hnl, skipNewlines]

/-- Reading the padding that closes a quantum of two characters. -/
theorem decodeLoop_pad2 (n si : Nat) (d0 d1 : UInt8) :
    decodeLoop URLEncoding n [padChar, padChar] si [d0, d1] = .ok (quantum [d0, d1]) := by
  have hnl : ¬(padChar = 10 ∨ padChar = 13) := by decide
  rw [decodeLoop]
  simp [decodeMap_pad_URL, hnl, skipNewlines]

theorem decodeLoop_Encode (n : Nat) (b : List UInt8) :
    ∀ si, decodeLoop URLEncoding n (URLEncoding.Encode b) si [] = .ok b := by
  induction b using Encoding.Encode.induct URLEncoding with
  | case1 a b c rest ih =>
    intro si
    rw [Encoding.Encode]
    simp only [decodeLoop_enc _ _ (Nat.lt_of_le_of_lt (Nat.and_le_right) (by decide : 0x3F < 64)),
      List.length_nil, List.length_cons, List.nil_append, List.cons_append, ih]
    simp only [Nat.reduceAdd, Nat.reduceEqDiff, if_false, if_true]
    rw [quantum4]; simp [ih]
  | case2 a b =>
    intro si
    rw [Encoding.Encode]
    simp only [decodeLoop_enc _ _ (Nat.lt_of_le_of_lt (Nat.and_le_right) (by decide : 0x3F < 64)),
      List.length_nil, List.length_cons, List.nil_append, List.cons_append]
    simp only [Nat.reduceAdd, Nat.reduceEqDiff, if_false, if_true]
    rw [decodeLoop_pad3, quantum3]
  | case3 a =>
    intro si
    rw [Encoding.Encode]
    simp only [decodeLoop_enc _ _ (Nat.lt_of_le_of_lt (Nat.and_le_right) (by decide : 0x3F < 64)),
      List.length_nil, List.length_cons, List.nil_append, List.cons_append]
    simp only [Nat.reduceAdd, Nat.reduceEqDiff, if_false, if_true]
    rw [decodeLoop_pad2, quantum2]
  | case4 =>
    intro si
    simp [Encoding.Encode, decodeLoop]

/-- Round trip of the URL-safe encoding: decoding the text of any byte
sequence gives the sequence back. -/
theorem DecodeString_EncodeToString (b : List UInt8) :
    URLEncoding.DecodeString (URLEncoding.EncodeToString b) = .ok b :=
  decodeLoop_Encode _ b 0

end base64

/-! ## Facts about the slice primitives and the client storer -/

theorem IndexByte_nonneg_iff (b : List UInt8) (c : UInt8) :
    ¬ bytes.IndexByte b c < 0 ↔ c ∈ b := by
  unfold bytes.IndexByte
  split <;> simp_all

theorem IndexByte_of_mem (b : List UInt8) (c : UInt8) (h : c ∈ b) :
    (bytes.IndexByte b c).toNat = b.indexOf c := by
  simp [bytes.IndexByte, h]

/-- The bytes before the first `c` of `k ++ c :: rest`, when `c` is not in `k`. -/
theorem take_indexOf_append (k rest : List UInt8) (c : UInt8) (h : c ∉ k) :
    (k ++ c :: rest).take ((k ++ c :: rest).indexOf c) = k := by
  rw [List.indexOf_append_of_not_mem h, List.indexOf_cons_self]
  simp

/-- Every sequence holding `c` splits at its first `c`. -/
theorem split_at_first (b : List UInt8) (c : UInt8) (h : c ∈ b) :
    ∃ rest, b = b.take (b.indexOf c) ++ c :: rest ∧ c ∉ b.take (b.indexOf c) := by
  induction b with
  | nil => simp at h
  | cons x xs ih =>
    by_cases hx : x = c
    · subst hx
      exact ⟨xs, by simp [List.indexOf_cons_self]⟩
    · have hmem : c ∈ xs := by
        rcases List.mem_cons.mp h with h1 | h1
        · exact absurd h1.symm hx
        · exact h1
      obtain ⟨rest, h1, h2⟩ := ih hmem
      refine ⟨rest, ?_, ?_⟩
      · rw [List.indexOf_cons_ne _ hx]
        simp only [List.take_succ_cons, List.cons_append]
        rw [← h1]
      · rw [List.indexOf_cons_ne _ hx]
        simp only [List.take_succ_cons, List.mem_cons, not_or]
        exact ⟨fun hc => hx hc.symm, h2⟩

theorem Get_Put (c : ClientStorer) (key value : GoString) :
    (c.Put key value).Get key = (value, true) := by
  simp [ClientStorer.Put, ClientStorer.Get]

namespace Remember

/-- The buffer of `New` before the random bytes are read. -/
theorem tokenBuffer_eq (key : GoString) :
    tokenBuffer key = key ++ delim :: List.replicate nRandBytes 0 := by
  have h1 : copy (makeBytes (nRandBytes + key.length + 1)) key =
      key ++ List.replicate (nRandBytes + 1) 0 := by
    simp only [copy, makeBytes, List.length_replicate, List.drop_replicate]
    rw [List.take_of_length_le (by omega)]
    congr 2
    omega
  unfold tokenBuffer
  simp only [h1, setByte]
  rw [List.set_append_right _ _ (Nat.le_refl _)]
  simp [List.replicate_succ]

/-- The buffer of `New` after 32 random bytes `r` were read into it. -/
theorem token_filled (key r : GoString) (hr : r.length = nRandBytes) :
    (tokenBuffer key).take (key.length + 1) ++ copy ((tokenBuffer key).drop (key.length + 1)) r =
      key ++ delim :: r := by
  rw [tokenBuffer_eq]
  have h1 : (key ++ delim :: List.replicate nRandBytes 0).take (key.length + 1) = key ++ [delim] := by
    rw [List.take_append_eq_append_take]
    simp
  have h2 : (key ++ delim :: List.replicate nRandBytes 0).drop (key.length + 1) =
      List.replicate nRandBytes 0 := by
    rw [List.drop_append_eq_append_drop]
    simp
  rw [h1, h2]
  simp [copy, hr]

/-- `New` when the random source delivered 32 bytes `r`. -/
theorem New_ok {σ : Type} (cfg : Authboss σ) (bk : Backend σ) (cstorer : ClientStorer)
    (key r : GoString) (hr : r.length = nRandBytes) :
    New cfg (.ok r) bk cstorer key =
      match (cfg.Storer.AddToken bk.db key (verifierOf (key ++ delim :: r))).2 with
      | some err =>
        ⟨⟨(cfg.Storer.AddToken bk.db key (verifierOf (key ++ delim :: r))).1,
          bk.calls ++ [.AddToken key (verifierOf (key ++ delim :: r))]⟩, cstorer, ([], some err)⟩
      | none =>
        ⟨⟨(cfg.Storer.AddToken bk.db key (verifierOf (key ++ delim :: r))).1,
          bk.calls ++ [.AddToken key (verifierOf (key ++ delim :: r))]⟩,
          cstorer.Put RememberKey (base64.URLEncoding.EncodeToString (key ++ delim :: r)),
          (base64.URLEncoding.EncodeToString (key ++ delim :: r), none)⟩ := by
  simp only [New, token_filled key r hr, verifierOf]

/-- `Auth` on an artifact that decodes to `b`, a sequence holding the
delimiter. -/
theorem Auth_decoded {σ : Type} (cfg : Authboss σ) (bk : Backend σ)
    (cstorer sstorer : ClientStorer) (art b : GoString)
    (hdec : base64.URLEncoding.DecodeString art = .ok b) (hmem : delim ∈ b) :
    Auth cfg bk cstorer sstorer art =
      match (cfg.Storer.UseToken bk.db (b.take (b.indexOf delim)) (verifierOf b)).2.2 with
      | some err =>
        ⟨⟨(cfg.Storer.UseToken bk.db (b.take (b.indexOf delim)) (verifierOf b)).1,
          bk.calls ++ [.UseToken (b.take (b.indexOf delim)) (verifierOf b)]⟩, cstorer, sstorer,
          ([], if err = .ErrTokenNotFound then none else some err)⟩
      | none =>
        ⟨⟨(cfg.Storer.UseToken bk.db (b.take (b.indexOf delim)) (verifierOf b)).1,
          bk.calls ++ [.UseToken (b.take (b.indexOf delim)) (verifierOf b)]⟩, cstorer,
          (sstorer.Put cfg.SessionHalfAuthKey (goStr "true")).Put cfg.SessionKey
            (cfg.Storer.UseToken bk.db (b.take (b.indexOf delim)) (verifierOf b)).2.1,
          ((cfg.Storer.UseToken bk.db (b.take (b.indexOf delim)) (verifierOf b)).2.1, none)⟩ := by
  have hidx : ¬ bytes.IndexByte b delim < 0 := (IndexByte_nonneg_iff b delim).mpr hmem
  obtain ⟨⟨add, use⟩, pid, sk, hk⟩ := cfg
  simp only [Auth, hdec, hidx, if_false, IndexByte_of_mem b delim hmem, verifierOf]
  generalize use bk.db (b.take (b.indexOf delim))
    (base64.StdEncoding.EncodeToString (md5.Sum b)) = u
  obtain ⟨db, key, err⟩ := u
  cases err with
  | none => simp
  | some e =>
    by_cases he : e = .ErrTokenNotFound
    · simp [he]
    · simp [he]

/-- `Auth` on an artifact that does not decode. -/
theorem Auth_undecodable {σ : Type} (cfg : Authboss σ) (bk : Backend σ)
    (cstorer sstorer : ClientStorer) (art : GoString) (err : GoError)
    (hdec : base64.URLEncoding.DecodeString art = .error err) :
    Auth cfg bk cstorer sstorer art = ⟨bk, cstorer, sstorer, ([], some err)⟩ := by
  simp only [Auth, hdec]

/-- `Auth` on an artifact that decodes to a sequence without delimiter. -/
theorem Auth_no_delim {σ : Type} (cfg : Authboss σ) (bk : Backend σ)
    (cstorer sstorer : ClientStorer) (art b : GoString)
    (hdec : base64.URLEncoding.DecodeString art = .ok b) (hmem : delim ∉ b) :
    Auth cfg bk cstorer sstorer art =
      ⟨bk, cstorer, sstorer, ([], some (.New "remember: Invalid remember me token."))⟩ := by
  have hidx : bytes.IndexByte b delim < 0 := by
    by_contra hc
    exact hmem ((IndexByte_nonneg_iff b delim).mp hc)
  simp only [Auth, hdec, hidx, if_true]

end Remember

theorem goStr_semicolon : goStr ";" = [Remember.delim] := by decide

/-! ## Round trips against the recording storer -/

namespace Remember

/-- `New` against the recording storer: the pair is recorded and the artifact
is returned. -/
theorem New_singleUse (cfg : Authboss (List (GoString × GoString)))
    (hst : cfg.Storer = singleUseStorer) (bk : Backend (List (GoString × GoString)))
    (cstorer : ClientStorer) (key r : GoString) (hr : r.length = nRandBytes) :
    New cfg (.ok r) bk cstorer key =
      ⟨⟨bk.db ++ [(key, verifierOf (key ++ delim :: r))],
        bk.calls ++ [.AddToken key (verifierOf (key ++ delim :: r))]⟩,
        cstorer.Put RememberKey (base64.URLEncoding.EncodeToString (key ++ delim :: r)),
        (base64.URLEncoding.EncodeToString (key ++ delim :: r), none)⟩ := by
  rw [New_ok cfg bk cstorer key r hr, hst]
  rfl

/-- `Auth` against the recording storer, on the artifact of a token whose
pair is on record: the pair is deleted and the owner key returned. -/
theorem Auth_singleUse_hit (cfg : Authboss (List (GoString × GoString)))
    (hst : cfg.Storer = singleUseStorer) (bk : Backend (List (GoString × GoString)))
    (cstorer sstorer : ClientStorer) (key r : GoString) (hkey : delim ∉ key)
    (hin : (key, verifierOf (key ++ delim :: r)) ∈ bk.db) :
    Auth cfg bk cstorer sstorer (base64.URLEncoding.EncodeToString (key ++ delim :: r)) =
      ⟨⟨bk.db.erase (key, verifierOf (key ++ delim :: r)),
        bk.calls ++ [.UseToken key (verifierOf (key ++ delim :: r))]⟩, cstorer,
        (sstorer.Put cfg.SessionHalfAuthKey (goStr "true")).Put cfg.SessionKey key,
        (key, none)⟩ := by
  rw [Auth_decoded cfg bk cstorer sstorer _ _ (base64.DecodeString_EncodeToString _) (by simp),
    take_indexOf_append key r delim hkey, hst]
  simp only [singleUseStorer, hin, if_true]

/-- `Auth` against the recording storer, on the artifact of a token whose
pair is not on record: nothing changes and the outcome is not-found. -/
theorem Auth_singleUse_miss (cfg : Authboss (List (GoString × GoString)))
    (hst : cfg.Storer = singleUseStorer) (bk : Backend (List (GoString × GoString)))
    (cstorer sstorer : ClientStorer) (key r : GoString) (hkey : delim ∉ key)
    (hin : (key, verifierOf (key ++ delim :: r)) ∉ bk.db) :
    Auth cfg bk cstorer sstorer (base64.URLEncoding.EncodeToString (key ++ delim :: r)) =
      ⟨⟨bk.db, bk.calls ++ [.UseToken key (verifierOf (key ++ delim :: r))]⟩, cstorer, sstorer,
        ([], none)⟩ := by
  rw [Auth_decoded cfg bk cstorer sstorer _ _ (base64.DecodeString_EncodeToString _) (by simp),
    take_indexOf_append key r delim hkey, hst]
  simp only [singleUseStorer, hin, if_false, if_true]

/-- The first artifact of `AuthAll` when its pair is on record. -/
theorem AuthAll_hit (cfg : Authboss (List (GoString × GoString)))
    (hst : cfg.Storer = singleUseStorer) (db : List (GoString × GoString))
    (calls : List StorerCall) (cstorer sstorer : ClientStorer) (key r : GoString)
    (arts : List GoString) (hkey : delim ∉ key)
    (hin : (key, verifierOf (key ++ delim :: r)) ∈ db) :
    AuthAll cfg ⟨db, calls⟩ cstorer sstorer
        (base64.URLEncoding.EncodeToString (key ++ delim :: r) :: arts) =
      (key, none) :: AuthAll cfg
        ⟨db.erase (key, verifierOf (key ++ delim :: r)),
          calls ++ [.UseToken key (verifierOf (key ++ delim :: r))]⟩ cstorer
        ((sstorer.Put cfg.SessionHalfAuthKey (goStr "true")).Put cfg.SessionKey key) arts := by
  rw [AuthAll, Auth_singleUse_hit cfg hst ⟨db, calls⟩ cstorer sstorer key r hkey hin]

/-- The first artifact of `AuthAll` when its pair is not on record. -/
theorem AuthAll_miss (cfg : Authboss (List (GoString × GoString)))
    (hst : cfg.Storer = singleUseStorer) (db : List (GoString × GoString))
    (calls : List StorerCall) (cstorer sstorer : ClientStorer) (key r : GoString)
    (arts : List GoString) (hkey : delim ∉ key)
    (hin : (key, verifierOf (key ++ delim :: r)) ∉ db) :
    AuthAll cfg ⟨db, calls⟩ cstorer sstorer
        (base64.URLEncoding.EncodeToString (key ++ delim :: r) :: arts) =
      ([], none) :: AuthAll cfg
        ⟨db, calls ++ [.UseToken key (verifierOf (key ++ delim :: r))]⟩ cstorer sstorer arts := by
  rw [AuthAll, Auth_singleUse_miss cfg hst ⟨db, calls⟩ cstorer sstorer key r hkey hin]

end Remember

/-- Deleting a record that is not among the older ones `l`. -/
theorem erase_fresh {α : Type} [BEq α] [LawfulBEq α] (l m : List α) (p : α) (h : p ∉ l) :
    (l ++ p :: m).erase p = l ++ m := by
  rw [List.erase_append_right _ h, List.erase_cons_head]

/-- Deleting the younger of two records that follow the older ones `l`. -/
theorem erase_second {α : Type} [BEq α] [LawfulBEq α] (l : List α) (p q : α) (h : q ∉ l) :
    (l ++ [p, q]).erase q = l ++ [p] := by
  rw [List.erase_append_right _ h]
  by_cases hpq : p = q
  · subst hpq
    rw [List.erase_cons_head]
  · have hb : ¬(p == q) = true := by simpa using hpq
    rw [List.erase_cons_tail hb, List.erase_cons_head]

/-! ## The claims -/

/-- C1: round trip, single use. For every owner key without `;` and every 32
random bytes, against the storer that records the `AddToken` pairs and deletes
a pair on use, starting from a state that holds no record of the pair to be
issued (a fresh store in particular): `New` succeeds, `Auth` on the artifact
it returned gives `(ownerKey, nil)`, and a second `Auth` on the same artifact
gives the not-found outcome `("", nil)`. -/
theorem C1_round_trip_single_use (cfg : Authboss (List (GoString × GoString)))
    (hst : cfg.Storer = singleUseStorer) (bk : Backend (List (GoString × GoString)))
    (cstorer sstorer : ClientStorer) (ownerKey r : GoString)
    (hkey : Remember.delim ∉ ownerKey) (hr : r.length = 32)
    (hfresh : (ownerKey,
      base64.StdEncoding.EncodeToString (md5.Sum (ownerKey ++ goStr ";" ++ r))) ∉ bk.db) :
    (Remember.New cfg (.ok r) bk cstorer ownerKey).ret.2 = none ∧
    (Remember.Auth cfg (Remember.New cfg (.ok r) bk cstorer ownerKey).backend
      (Remember.New cfg (.ok r) bk cstorer ownerKey).cstorer sstorer
      (Remember.New cfg (.ok r) bk cstorer ownerKey).ret.1).ret = (ownerKey, none) ∧
    Remember.AuthAll cfg (Remember.New cfg (.ok r) bk cstorer ownerKey).backend
      (Remember.New cfg (.ok r) bk cstorer ownerKey).cstorer sstorer
      [(Remember.New cfg (.ok r) bk cstorer ownerKey).ret.1,
       (Remember.New cfg (.ok r) bk cstorer ownerKey).ret.1] =
      [(ownerKey, none), ([], none)] := by
  simp only [goStr_semicolon, List.append_assoc, List.singleton_append] at hfresh
  have hfresh2 : (ownerKey, Remember.verifierOf (ownerKey ++ Remember.delim :: r)) ∉ bk.db :=
    hfresh
  rw [Remember.New_singleUse cfg hst bk cstorer ownerKey r hr]
  dsimp only
  refine ⟨rfl, ?_, ?_⟩
  · rw [Remember.Auth_singleUse_hit cfg hst _ _ _ ownerKey r hkey (by simp)]
  · rw [Remember.AuthAll_hit cfg hst _ _ _ _ ownerKey r _ hkey (by simp),
      erase_fresh _ _ _ hfresh2, List.append_nil,
      Remember.AuthAll_miss cfg hst _ _ _ _ ownerKey r _ hkey hfresh2]
    rfl

/-- Witness of C1: the owner key `alice` and 32 zero bytes on a fresh store. -/
theorem C1_round_trip_single_use_witness :
    Remember.delim ∉ goStr "alice" ∧ (List.replicate 32 (0 : UInt8)).length = 32 ∧
    Remember.AuthAll (sampleCfg singleUseStorer)
      (Remember.New (sampleCfg singleUseStorer) (.ok (List.replicate 32 0)) (freshBackend [])
        emptyStorer (goStr "alice")).backend
      (Remember.New (sampleCfg singleUseStorer) (.ok (List.replicate 32 0)) (freshBackend [])
        emptyStorer (goStr "alice")).cstorer emptyStorer
      [(Remember.New (sampleCfg singleUseStorer) (.ok (List.replicate 32 0)) (freshBackend [])
          emptyStorer (goStr "alice")).ret.1,
       (Remember.New (sampleCfg singleUseStorer) (.ok (List.replicate 32 0)) (freshBackend [])
          emptyStorer (goStr "alice")).ret.1] =
      [(goStr "alice", none), ([], none)] :=
  ⟨by decide, by decide,
    (C1_round_trip_single_use (sampleCfg singleUseStorer) rfl (freshBackend []) emptyStorer
      emptyStorer (goStr "alice") (List.replicate 32 0) (by decide) (by decide)
      (List.not_mem_nil _)).2.2⟩

/-- C2: multi-device independence. Two tokens issued for the same owner key
(without `;`), against the recording storer in a state that holds no record
of either pair: both issuances succeed; presented one after the other, in
either order, each artifact makes `Auth` return `(ownerKey, nil)`, and after
that each gives not-found; and when the two stored verifiers differ, using an
artifact a second time gives not-found while the other artifact still
verifies afterwards. -/
theorem C2_multi_device (cfg : Authboss (List (GoString × GoString)))
    (hst : cfg.Storer = singleUseStorer) (bk : Backend (List (GoString × GoString)))
    (cstorer sstorer : ClientStorer) (ownerKey r1 r2 : GoString)
    (hkey : Remember.delim ∉ ownerKey) (hr1 : r1.length = 32) (hr2 : r2.length = 32)
    (hfresh1 : (ownerKey,
      base64.StdEncoding.EncodeToString (md5.Sum (ownerKey ++ goStr ";" ++ r1))) ∉ bk.db)
    (hfresh2 : (ownerKey,
      base64.StdEncoding.EncodeToString (md5.Sum (ownerKey ++ goStr ";" ++ r2))) ∉ bk.db) :
    let n1 := Remember.New cfg (.ok r1) bk cstorer ownerKey
    let n2 := Remember.New cfg (.ok r2) n1.backend n1.cstorer ownerKey
    n1.ret.2 = none ∧ n2.ret.2 = none ∧
    Remember.AuthAll cfg n2.backend n2.cstorer sstorer [n1.ret.1, n2.ret.1, n1.ret.1, n2.ret.1] =
      [(ownerKey, none), (ownerKey, none), ([], none), ([], none)] ∧
    Remember.AuthAll cfg n2.backend n2.cstorer sstorer [n2.ret.1, n1.ret.1, n2.ret.1, n1.ret.1] =
      [(ownerKey, none), (ownerKey, none), ([], none), ([], none)] ∧
    (base64.StdEncoding.EncodeToString (md5.Sum (ownerKey ++ goStr ";" ++ r1)) ≠
        base64.StdEncoding.EncodeToString (md5.Sum (ownerKey ++ goStr ";" ++ r2)) →
      Remember.AuthAll cfg n2.backend n2.cstorer sstorer
          [n1.ret.1, n1.ret.1, n2.ret.1, n2.ret.1] =
        [(ownerKey, none), ([], none), (ownerKey, none), ([], none)] ∧
      Remember.AuthAll cfg n2.backend n2.cstorer sstorer
          [n2.ret.1, n2.ret.1, n1.ret.1, n1.ret.1] =
        [(ownerKey, none), ([], none), (ownerKey, none), ([], none)]) := by
  simp only [goStr_semicolon, List.append_assoc, List.singleton_append] at hfresh1 hfresh2 ⊢
  have hf1 : (ownerKey, Remember.verifierOf (ownerKey ++ Remember.delim :: r1)) ∉ bk.db :=
    hfresh1
  have hf2 : (ownerKey, Remember.verifierOf (ownerKey ++ Remember.delim :: r2)) ∉ bk.db :=
    hfresh2
  rw [Remember.New_singleUse cfg hst bk cstorer ownerKey r1 hr1]
  dsimp only
  rw [Remember.New_singleUse cfg hst _ _ ownerKey r2 hr2]
  dsimp only
  simp only [List.append_assoc, List.singleton_append, true_and]
  refine ⟨?_, ?_, ?_⟩
  · rw [Remember.AuthAll_hit cfg hst _ _ _ _ ownerKey r1 _ hkey (by simp),
      erase_fresh _ _ _ hf1,
      Remember.AuthAll_hit cfg hst _ _ _ _ ownerKey r2 _ hkey (by simp),
      erase_fresh _ _ _ hf2, List.append_nil,
      Remember.AuthAll_miss cfg hst _ _ _ _ ownerKey r1 _ hkey hf1,
      Remember.AuthAll_miss cfg hst _ _ _ _ ownerKey r2 _ hkey hf2]
    rfl
  · rw [Remember.AuthAll_hit cfg hst _ _ _ _ ownerKey r2 _ hkey (by simp),
      erase_second _ _ _ hf2,
      Remember.AuthAll_hit cfg hst _ _ _ _ ownerKey r1 _ hkey (by simp),
      erase_fresh _ _ _ hf1, List.append_nil,
      Remember.AuthAll_miss cfg hst _ _ _ _ ownerKey r2 _ hkey hf2,
      Remember.AuthAll_miss cfg hst _ _ _ _ ownerKey r1 _ hkey hf1]
    rfl
  · intro hne
    have hne2 : Remember.verifierOf (ownerKey ++ Remember.delim :: r1) ≠
        Remember.verifierOf (ownerKey ++ Remember.delim :: r2) := hne
    have hm1 : (ownerKey, Remember.verifierOf (ownerKey ++ Remember.delim :: r1)) ∉
        bk.db ++ [(ownerKey, Remember.verifierOf (ownerKey ++ Remember.delim :: r2))] := by
      simp [hf1, hne2]
    have hm2 : (ownerKey, Remember.verifierOf (ownerKey ++ Remember.delim :: r2)) ∉
        bk.db ++ [(ownerKey, Remember.verifierOf (ownerKey ++ Remember.delim :: r1))] := by
      simp [hf2, Ne.symm hne2]
    constructor
    · rw [Remember.AuthAll_hit cfg hst _ _ _ _ ownerKey r1 _ hkey (by simp),
        erase_fresh _ _ _ hf1,
        Remember.AuthAll_miss cfg hst _ _ _ _ ownerKey r1 _ hkey hm1,
        Remember.AuthAll_hit cfg hst _ _ _ _ ownerKey r2 _ hkey (by simp),
        erase_fresh _ _ _ hf2, List.append_nil,
        Remember.AuthAll_miss cfg hst _ _ _ _ ownerKey r2 _ hkey hf2]
      rfl
    · rw [Remember.AuthAll_hit cfg hst _ _ _ _ ownerKey r2 _ hkey (by simp),
        erase_second _ _ _ hf2,
        Remember.AuthAll_miss cfg hst _ _ _ _ ownerKey r2 _ hkey hm2,
        Remember.AuthAll_hit cfg hst _ _ _ _ ownerKey r1 _ hkey (by simp),
        erase_fresh _ _ _ hf1, List.append_nil,
        Remember.AuthAll_miss cfg hst _ _ _ _ ownerKey r1 _ hkey hf1]
      rfl

/-- Witness of C2: the owner key `alice`, 32 zero bytes and 32 one bytes, on a
fresh store. -/
theorem C2_multi_device_witness :
    Remember.delim ∉ goStr "alice" ∧
    (List.replicate 32 (0 : UInt8)).length = 32 ∧ (List.replicate 32 (1 : UInt8)).length = 32 ∧
    base64.StdEncoding.EncodeToString
        (md5.Sum (goStr "alice" ++ goStr ";" ++ List.replicate 32 0)) ≠
      base64.StdEncoding.EncodeToString
        (md5.Sum (goStr "alice" ++ goStr ";" ++ List.replicate 32 1)) ∧
    (let n1 := Remember.New (sampleCfg singleUseStorer) (.ok (List.replicate 32 0))
        (freshBackend []) emptyStorer (goStr "alice")
     let n2 := Remember.New (sampleCfg singleUseStorer) (.ok (List.replicate 32 1))
        n1.backend n1.cstorer (goStr "alice")
     Remember.AuthAll (sampleCfg singleUseStorer) n2.backend n2.cstorer emptyStorer
        [n1.ret.1, n1.ret.1, n2.ret.1, n2.ret.1] =
      [(goStr "alice", none), ([], none), (goStr "alice", none), ([], none)]) :=
  ⟨by decide, by decide, by decide, by decide,
    ((C2_multi_device (sampleCfg singleUseStorer) rfl (freshBackend []) emptyStorer emptyStorer
      (goStr "alice") (List.replicate 32 0) (List.replicate 32 1) (by decide) (by decide)
      (by decide) (List.not_mem_nil _) (List.not_mem_nil _)).2.2.2.2 (by decide)).1⟩

/-- C3: for every artifact that is not valid URL-safe base64, or that decodes
to a byte sequence without `;`, `Auth` returns the empty key with a non-nil
error, makes no call on the `TokenStorer` (whose state is unchanged) and
writes nothing to the session storer. -/
theorem C3_Auth_malformed {σ : Type} (cfg : Authboss σ) (bk : Backend σ)
    (cstorer sstorer : ClientStorer) (artifact : GoString)
    (h : (∃ err, base64.URLEncoding.DecodeString artifact = .error err) ∨
      (∃ b, base64.URLEncoding.DecodeString artifact = .ok b ∧ Remember.delim ∉ b)) :
    (Remember.Auth cfg bk cstorer sstorer artifact).ret.1 = [] ∧
    (Remember.Auth cfg bk cstorer sstorer artifact).ret.2 ≠ none ∧
    (Remember.Auth cfg bk cstorer sstorer artifact).backend.calls = bk.calls ∧
    (Remember.Auth cfg bk cstorer sstorer artifact).backend.db = bk.db ∧
    (Remember.Auth cfg bk cstorer sstorer artifact).sstorer = sstorer := by
  rcases h with ⟨err, hdec⟩ | ⟨b, hdec, hmem⟩
  · rw [Remember.Auth_undecodable cfg bk cstorer sstorer artifact err hdec]
    exact ⟨rfl, by simp, rfl, rfl, rfl⟩
  · rw [Remember.Auth_no_delim cfg bk cstorer sstorer artifact b hdec hmem]
    exact ⟨rfl, by simp, rfl, rfl, rfl⟩

/-- Witness of C3: the artifact `YWxpY2U=`, the text of `alice` without
delimiter. -/
theorem C3_Auth_malformed_witness :
    base64.URLEncoding.DecodeString (goStr "YWxpY2U=") = .ok (goStr "alice") ∧
    Remember.delim ∉ goStr "alice" ∧
    (Remember.Auth (sampleCfg singleUseStorer) (freshBackend []) emptyStorer emptyStorer
      (goStr "YWxpY2U=")).backend.calls = [] :=
  ⟨rfl, by decide,
    (C3_Auth_malformed (sampleCfg singleUseStorer) (freshBackend []) emptyStorer emptyStorer
      (goStr "YWxpY2U=") (Or.inr ⟨goStr "alice", rfl, by decide⟩)).2.2.1⟩

/-- C4, as stated, fails: against a storer whose `UseToken` always reports
`ErrTokenNotFound`, `Auth` returns a non-nil error for the empty artifact
(no delimiter) and for the artifact `!` (not base64). -/
theorem C4_counterexample :
    (∀ db key token, (notFoundStorer.UseToken db key token).2.2 = some .ErrTokenNotFound) ∧
    (Remember.Auth (sampleCfg notFoundStorer) (freshBackend ()) emptyStorer emptyStorer
      (goStr "")).ret = ([], some (.New "remember: Invalid remember me token.")) ∧
    (Remember.Auth (sampleCfg notFoundStorer) (freshBackend ()) emptyStorer emptyStorer
      (goStr "!")).ret = ([], some (.CorruptInputError 0)) :=
  ⟨fun _ _ _ => rfl, by decide, by decide⟩

/-- C4, amended: with a `TokenStorer` whose `UseToken` always returns
`ErrTokenNotFound`, `Auth` returns the empty key and leaves the session storer
alone for every artifact, and its error is nil exactly when the artifact is
valid URL-safe base64 whose decoding holds a `;`. -/
theorem C4_Auth_not_found {σ : Type} (cfg : Authboss σ)
    (hnf : ∀ db key token, (cfg.Storer.UseToken db key token).2.2 = some .ErrTokenNotFound)
    (bk : Backend σ) (cstorer sstorer : ClientStorer) (artifact : GoString) :
    (Remember.Auth cfg bk cstorer sstorer artifact).ret.1 = [] ∧
    (Remember.Auth cfg bk cstorer sstorer artifact).sstorer = sstorer ∧
    ((Remember.Auth cfg bk cstorer sstorer artifact).ret.2 = none ↔
      ∃ b, base64.URLEncoding.DecodeString artifact = .ok b ∧ Remember.delim ∈ b) := by
  cases hdec : base64.URLEncoding.DecodeString artifact with
  | error err =>
    rw [Remember.Auth_undecodable cfg bk cstorer sstorer artifact err hdec]
    exact ⟨rfl, rfl, by simp⟩
  | ok b =>
    by_cases hmem : Remember.delim ∈ b
    · rw [Remember.Auth_decoded cfg bk cstorer sstorer artifact b hdec hmem, hnf]
      exact ⟨rfl, rfl, by simp [hmem]⟩
    · rw [Remember.Auth_no_delim cfg bk cstorer sstorer artifact b hdec hmem]
      exact ⟨rfl, rfl, by simp [hmem]⟩

/-- Witness of C4, amended: the storer `notFoundStorer` and the artifact
`YWxpY2U7eA==`, the text of `alice;x`. -/
theorem C4_Auth_not_found_witness :
    (∀ db key token, ((sampleCfg notFoundStorer).Storer.UseToken db key token).2.2 =
      some .ErrTokenNotFound) ∧
    (Remember.Auth (sampleCfg notFoundStorer) (freshBackend ()) emptyStorer emptyStorer
      (goStr "YWxpY2U7eA==")).ret.1 = [] :=
  ⟨fun _ _ _ => rfl,
    (C4_Auth_not_found (sampleCfg notFoundStorer) (fun _ _ _ => rfl) (freshBackend ())
      emptyStorer emptyStorer (goStr "YWxpY2U7eA==")).1⟩

/-- C5: for every owner key and every 32 random bytes `r`, when `AddToken`
succeeds, `New` returns exactly the URL-safe base64 text of the
`len(ownerKey) + 1 + 32` bytes `ownerKey ++ ";" ++ r` with a nil error and puts
that same text into the client storer under the key `rm`; for the owner key
`alice` and 32 zero bytes the text is
`YWxpY2U7AAAAAAAAAAAAAAAAAAAAAAAAAAAAAAAAAAAAAAAAAAA=`. -/
theorem C5_New_artifact {σ : Type} (cfg : Authboss σ) (bk : Backend σ) (cstorer : ClientStorer)
    (ownerKey r : GoString) (hr : r.length = 32)
    (hadd : (cfg.Storer.AddToken bk.db ownerKey
      (base64.StdEncoding.EncodeToString (md5.Sum (ownerKey ++ goStr ";" ++ r)))).2 = none) :
    (Remember.New cfg (.ok r) bk cstorer ownerKey).ret =
      (base64.URLEncoding.EncodeToString (ownerKey ++ goStr ";" ++ r), none) ∧
    (ownerKey ++ goStr ";" ++ r).length = ownerKey.length + 1 + 32 ∧
    (Remember.New cfg (.ok r) bk cstorer ownerKey).cstorer =
      cstorer.Put (goStr "rm") (base64.URLEncoding.EncodeToString (ownerKey ++ goStr ";" ++ r)) ∧
    (Remember.New cfg (.ok r) bk cstorer ownerKey).cstorer.Get (goStr "rm") =
      (base64.URLEncoding.EncodeToString (ownerKey ++ goStr ";" ++ r), true) ∧
    (ownerKey = goStr "alice" → r = List.replicate 32 0 →
      (Remember.New cfg (.ok r) bk cstorer ownerKey).ret.1 =
        goStr "YWxpY2U7AAAAAAAAAAAAAAAAAAAAAAAAAAAAAAAAAAAAAAAAAAA=") := by
  have hnew := Remember.New_ok cfg bk cstorer ownerKey r hr
  simp only [goStr_semicolon, List.append_assoc, List.singleton_append] at hadd ⊢
  simp only [Remember.verifierOf, hadd] at hnew
  rw [hnew]
  refine ⟨rfl, ?_, rfl, Get_Put _ _ _, ?_⟩
  · simp [hr]
  · intro hk hz
    subst hk hz
    show base64.URLEncoding.EncodeToString (goStr "alice" ++ Remember.delim :: List.replicate 32 0) =
      goStr "YWxpY2U7AAAAAAAAAAAAAAAAAAAAAAAAAAAAAAAAAAAAAAAAAAA="
    decide

/-- Witness of C5: `alice` and 32 zero bytes against the recording storer. -/
theorem C5_New_artifact_witness :
    (List.replicate 32 (0 : UInt8)).length = 32 ∧
    ((sampleCfg singleUseStorer).Storer.AddToken (freshBackend []).db (goStr "alice")
      (base64.StdEncoding.EncodeToString
        (md5.Sum (goStr "alice" ++ goStr ";" ++ List.replicate 32 0)))).2 = none ∧
    (Remember.New (sampleCfg singleUseStorer) (.ok (List.replicate 32 0)) (freshBackend [])
      emptyStorer (goStr "alice")).ret =
      (base64.URLEncoding.EncodeToString (goStr "alice" ++ goStr ";" ++ List.replicate 32 0), none) ∧
    (Remember.New (sampleCfg singleUseStorer) (.ok (List.replicate 32 0)) (freshBackend [])
      emptyStorer (goStr "alice")).ret.1 =
      goStr "YWxpY2U7AAAAAAAAAAAAAAAAAAAAAAAAAAAAAAAAAAAAAAAAAAA=" :=
  ⟨by decide, rfl,
    (C5_New_artifact (sampleCfg singleUseStorer) (freshBackend []) emptyStorer
      (goStr "alice") (List.replicate 32 0) (by decide) rfl).1,
    (C5_New_artifact (sampleCfg singleUseStorer) (freshBackend []) emptyStorer
      (goStr "alice") (List.replicate 32 0) (by decide) rfl).2.2.2.2 rfl rfl⟩

/-- C6: issuance is atomic on failure. Whenever `New` returns a non-nil error
it returns the empty string and has not written to the client storer; when the
random source failed, its error is returned and no call was made on the
`TokenStorer`, whose state is unchanged; when the random source delivered, `New`
made exactly one `AddToken` call and returns the error of that call unchanged. -/
theorem C6_New_failure_atomic {σ : Type} (cfg : Authboss σ) (rnd : Except GoError (List UInt8))
    (bk : Backend σ) (cstorer : ClientStorer) (ownerKey : GoString) :
    (∀ err, (Remember.New cfg rnd bk cstorer ownerKey).ret.2 = some err →
      (Remember.New cfg rnd bk cstorer ownerKey).ret.1 = [] ∧
      (Remember.New cfg rnd bk cstorer ownerKey).cstorer = cstorer) ∧
    (∀ err, rnd = .error err →
      (Remember.New cfg rnd bk cstorer ownerKey).ret = ([], some err) ∧
      (Remember.New cfg rnd bk cstorer ownerKey).backend.calls = bk.calls ∧
      (Remember.New cfg rnd bk cstorer ownerKey).backend.db = bk.db) ∧
    (∀ r, rnd = .ok r → ∃ token,
      (Remember.New cfg rnd bk cstorer ownerKey).backend.calls =
        bk.calls ++ [.AddToken ownerKey token] ∧
      (Remember.New cfg rnd bk cstorer ownerKey).backend.db =
        (cfg.Storer.AddToken bk.db ownerKey token).1 ∧
      (Remember.New cfg rnd bk cstorer ownerKey).ret.2 =
        (cfg.Storer.AddToken bk.db ownerKey token).2) := by
  obtain ⟨⟨add, use⟩, pid, sk, hk⟩ := cfg
  refine ⟨?_, ?_, ?_⟩
  · intro err h
    cases rnd with
    | error e => exact ⟨rfl, rfl⟩
    | ok r =>
      simp only [Remember.New] at h ⊢
      generalize add bk.db ownerKey _ = u at h ⊢
      obtain ⟨db, e⟩ := u
      cases e with
      | none => simp at h
      | some e => exact ⟨rfl, rfl⟩
  · intro err h
    subst h
    exact ⟨rfl, rfl, rfl⟩
  · intro r h
    subst h
    refine ⟨base64.StdEncoding.EncodeToString (md5.Sum
      ((Remember.tokenBuffer ownerKey).take (ownerKey.length + 1) ++
        copy ((Remember.tokenBuffer ownerKey).drop (ownerKey.length + 1)) r)), ?_⟩
    simp only [Remember.New]
    generalize add bk.db ownerKey _ = u
    obtain ⟨db, e⟩ := u
    cases e <;> exact ⟨rfl, rfl, rfl⟩

/-- Witness of C6: a failing random source, and a storer whose `AddToken`
fails. -/
theorem C6_New_failure_atomic_witness :
    (Remember.New (sampleCfg singleUseStorer) (.error (.New "no entropy")) (freshBackend [])
      emptyStorer (goStr "alice")).ret = ([], some (.New "no entropy")) ∧
    (Remember.New (sampleCfg singleUseStorer) (.error (.New "no entropy")) (freshBackend [])
      emptyStorer (goStr "alice")).backend.calls = [] ∧
    (Remember.New (sampleCfg (failingStorer (.New "db down"))) (.ok (List.replicate 32 0))
      (freshBackend ()) emptyStorer (goStr "alice")).ret.2 = some (.New "db down") ∧
    (Remember.New (sampleCfg (failingStorer (.New "db down"))) (.ok (List.replicate 32 0))
      (freshBackend ()) emptyStorer (goStr "alice")).ret.1 = [] ∧
    (Remember.New (sampleCfg (failingStorer (.New "db down"))) (.ok (List.replicate 32 0))
      (freshBackend ()) emptyStorer (goStr "alice")).cstorer = emptyStorer ∧
    ∃ token,
      (Remember.New (sampleCfg (failingStorer (.New "db down"))) (.ok (List.replicate 32 0))
        (freshBackend ()) emptyStorer (goStr "alice")).backend.calls =
        (freshBackend ()).calls ++ [.AddToken (goStr "alice") token] :=
  ⟨((C6_New_failure_atomic (sampleCfg singleUseStorer) (.error (.New "no entropy"))
      (freshBackend []) emptyStorer (goStr "alice")).2.1 (.New "no entropy") rfl).1,
   ((C6_New_failure_atomic (sampleCfg singleUseStorer) (.error (.New "no entropy"))
      (freshBackend []) emptyStorer (goStr "alice")).2.1 (.New "no entropy") rfl).2.1,
   rfl,
   ((C6_New_failure_atomic (sampleCfg (failingStorer (.New "db down")))
      (.ok (List.replicate 32 0)) (freshBackend ()) emptyStorer (goStr "alice")).1
      (.New "db down") rfl).1,
   ((C6_New_failure_atomic (sampleCfg (failingStorer (.New "db down")))
      (.ok (List.replicate 32 0)) (freshBackend ()) emptyStorer (goStr "alice")).1
      (.New "db down") rfl).2,
   ((C6_New_failure_atomic (sampleCfg (failingStorer (.New "db down")))
      (.ok (List.replicate 32 0)) (freshBackend ()) emptyStorer (goStr "alice")).2.2
      (List.replicate 32 0) rfl).imp fun _ h => h.1⟩

/-- C7, as stated, fails: a storer that resolves every token to the owner
`bob` makes `Auth`, on the text of `alice;x`, return `bob` and write `bob` as
the session identity, not the bytes `alice` before the delimiter. -/
theorem C7_counterexample :
    base64.URLEncoding.DecodeString (goStr "YWxpY2U7eA==") = .ok (goStr "alice;x") ∧
    (Remember.Auth (sampleCfg (fixedOwnerStorer (goStr "bob"))) (freshBackend ()) emptyStorer
      emptyStorer (goStr "YWxpY2U7eA==")).ret = (goStr "bob", none) ∧
    (Remember.Auth (sampleCfg (fixedOwnerStorer (goStr "bob"))) (freshBackend ()) emptyStorer
      emptyStorer (goStr "YWxpY2U7eA==")).sstorer.puts =
      [(goStr "halfauth", goStr "true"), (goStr "uid", goStr "bob")] ∧
    goStr "bob" ≠ goStr "alice" :=
  ⟨rfl, by decide, by decide, by decide⟩

/-- C7, amended: on a match (`UseToken` returns without error) `Auth` writes
`SessionHalfAuthKey = "true"` and then `SessionKey = key` into the session
storer and returns `(key, nil)`, where `key` is the key that `UseToken`
returned; `UseToken` was given the bytes before the delimiter of the decoded
artifact, so `key` is that byte sequence whenever the storer returns the key it
was given. -/
theorem C7_Auth_match {σ : Type} (cfg : Authboss σ) (bk : Backend σ)
    (cstorer sstorer : ClientStorer) (artifact b : GoString)
    (hdec : base64.URLEncoding.DecodeString artifact = .ok b) (hmem : Remember.delim ∈ b)
    (huse : (cfg.Storer.UseToken bk.db (b.take (b.indexOf Remember.delim))
      (base64.StdEncoding.EncodeToString (md5.Sum b))).2.2 = none) :
    (Remember.Auth cfg bk cstorer sstorer artifact).sstorer =
      (sstorer.Put cfg.SessionHalfAuthKey (goStr "true")).Put cfg.SessionKey
        (cfg.Storer.UseToken bk.db (b.take (b.indexOf Remember.delim))
          (base64.StdEncoding.EncodeToString (md5.Sum b))).2.1 ∧
    (Remember.Auth cfg bk cstorer sstorer artifact).ret =
      ((cfg.Storer.UseToken bk.db (b.take (b.indexOf Remember.delim))
        (base64.StdEncoding.EncodeToString (md5.Sum b))).2.1, none) ∧
    ((cfg.Storer.UseToken bk.db (b.take (b.indexOf Remember.delim))
        (base64.StdEncoding.EncodeToString (md5.Sum b))).2.1 = b.take (b.indexOf Remember.delim) →
      (Remember.Auth cfg bk cstorer sstorer artifact).ret =
        (b.take (b.indexOf Remember.delim), none) ∧
      (Remember.Auth cfg bk cstorer sstorer artifact).sstorer =
        (sstorer.Put cfg.SessionHalfAuthKey (goStr "true")).Put cfg.SessionKey
          (b.take (b.indexOf Remember.delim))) := by
  have hauth := Remember.Auth_decoded cfg bk cstorer sstorer artifact b hdec hmem
  simp only [Remember.verifierOf, huse] at hauth
  rw [hauth]
  refine ⟨rfl, rfl, ?_⟩
  intro hk
  rw [hk]
  exact ⟨rfl, rfl⟩

/-- Witness of C7, amended: the storer that resolves every token to `bob`,
and the one that resolves every token to `alice`, on the text of `alice;x`. -/
theorem C7_Auth_match_witness :
    base64.URLEncoding.DecodeString (goStr "YWxpY2U7eA==") = .ok (goStr "alice;x") ∧
    Remember.delim ∈ goStr "alice;x" ∧
    (Remember.Auth (sampleCfg (fixedOwnerStorer (goStr "bob"))) (freshBackend ()) emptyStorer
      emptyStorer (goStr "YWxpY2U7eA==")).ret = (goStr "bob", none) ∧
    (Remember.Auth (sampleCfg (fixedOwnerStorer (goStr "alice"))) (freshBackend ()) emptyStorer
      emptyStorer (goStr "YWxpY2U7eA==")).ret =
      ((goStr "alice;x").take ((goStr "alice;x").indexOf Remember.delim), none) :=
  ⟨rfl, by decide,
    (C7_Auth_match (sampleCfg (fixedOwnerStorer (goStr "bob"))) (freshBackend ()) emptyStorer
      emptyStorer (goStr "YWxpY2U7eA==") (goStr "alice;x") rfl (by decide) rfl).2.1,
    ((C7_Auth_match (sampleCfg (fixedOwnerStorer (goStr "alice"))) (freshBackend ()) emptyStorer
      emptyStorer (goStr "YWxpY2U7eA==") (goStr "alice;x") rfl (by decide) rfl).2.2
      (by decide)).1⟩

/-- C8: when the first posted form value named `rm` is absent or is not
exactly `true`, `AfterAuth` returns nil, makes no call on the `TokenStorer`
(whose state is unchanged) and leaves the cookie storer alone, whatever
`ctx.User` is. -/
theorem C8_AfterAuth_opt_in {σ : Type} (cfg : Authboss σ) (rnd : Except GoError (List UInt8))
    (bk : Backend σ) (ctx : Context)
    (h : (ctx.FirstPostFormValue (goStr "rm")).2 = false ∨
      (ctx.FirstPostFormValue (goStr "rm")).1 ≠ goStr "true") :
    (Remember.AfterAuth cfg rnd bk ctx).ret = none ∧
    (Remember.AfterAuth cfg rnd bk ctx).backend.calls = bk.calls ∧
    (Remember.AfterAuth cfg rnd bk ctx).backend.db = bk.db ∧
    (Remember.AfterAuth cfg rnd bk ctx).cstorer = ctx.CookieStorer := by
  have hcond : (!(ctx.FirstPostFormValue Remember.RememberKey).2 ||
      decide ((ctx.FirstPostFormValue Remember.RememberKey).1 ≠ goStr "true")) = true := by
    rcases h with h | h
    · have h2 : (ctx.FirstPostFormValue Remember.RememberKey).2 = false := h
      simp [h2]
    · have h2 : (ctx.FirstPostFormValue Remember.RememberKey).1 ≠ goStr "true" := h
      simp [h2]
  simp only [Remember.AfterAuth, hcond, if_true, and_self]

/-- Witness of C8: a form that posts `rm=on` for a loaded user. -/
theorem C8_AfterAuth_opt_in_witness :
    (Remember.AfterAuth (sampleCfg singleUseStorer) (.ok (List.replicate 32 0)) (freshBackend [])
      ⟨fun _ => (goStr "on", true), some ⟨fun _ => (goStr "alice", none)⟩, emptyStorer⟩).ret =
      none :=
  (C8_AfterAuth_opt_in (sampleCfg singleUseStorer) (.ok (List.replicate 32 0)) (freshBackend [])
    ⟨fun _ => (goStr "on", true), some ⟨fun _ => (goStr "alice", none)⟩, emptyStorer⟩
    (Or.inr (by decide))).1

/-- C9: verification leaves no partial state on failure. If `UseToken`
returns an error other than `ErrTokenNotFound`, `Auth` returns the empty key
with that error; and unless the artifact decodes, holds a `;` and `UseToken`
succeeds, `Auth` leaves the session storer unchanged and returns the empty
key. -/
theorem C9_Auth_failure_leaves_session {σ : Type} (cfg : Authboss σ) (bk : Backend σ)
    (cstorer sstorer : ClientStorer) (artifact : GoString) :
    (∀ b err, base64.URLEncoding.DecodeString artifact = .ok b → Remember.delim ∈ b →
      (cfg.Storer.UseToken bk.db (b.take (b.indexOf Remember.delim))
        (base64.StdEncoding.EncodeToString (md5.Sum b))).2.2 = some err →
      err ≠ .ErrTokenNotFound →
      (Remember.Auth cfg bk cstorer sstorer artifact).ret = ([], some err)) ∧
    ((¬ ∃ b, base64.URLEncoding.DecodeString artifact = .ok b ∧ Remember.delim ∈ b ∧
        (cfg.Storer.UseToken bk.db (b.take (b.indexOf Remember.delim))
          (base64.StdEncoding.EncodeToString (md5.Sum b))).2.2 = none) →
      (Remember.Auth cfg bk cstorer sstorer artifact).sstorer = sstorer ∧
      (Remember.Auth cfg bk cstorer sstorer artifact).ret.1 = []) := by
  constructor
  · intro b err hdec hmem huse hne
    rw [Remember.Auth_decoded cfg bk cstorer sstorer artifact b hdec hmem]
    simp only [Remember.verifierOf, huse, hne, if_false]
  · intro hno
    cases hdec : base64.URLEncoding.DecodeString artifact with
    | error err =>
      rw [Remember.Auth_undecodable cfg bk cstorer sstorer artifact err hdec]
      exact ⟨rfl, rfl⟩
    | ok b =>
      by_cases hmem : Remember.delim ∈ b
      · rw [Remember.Auth_decoded cfg bk cstorer sstorer artifact b hdec hmem]
        cases huse : (cfg.Storer.UseToken bk.db (b.take (b.indexOf Remember.delim))
            (Remember.verifierOf b)).2.2 with
        | none => exact absurd ⟨b, hdec, hmem, huse⟩ hno
        | some err => exact ⟨rfl, rfl⟩
      · rw [Remember.Auth_no_delim cfg bk cstorer sstorer artifact b hdec hmem]
        exact ⟨rfl, rfl⟩

/-- Witness of C9: a storer that fails with `db down`, and the artifact
`YWxpY2U7eA==`, the text of `alice;x`. -/
theorem C9_Auth_failure_leaves_session_witness :
    base64.URLEncoding.DecodeString (goStr "YWxpY2U7eA==") = .ok (goStr "alice;x") ∧
    (Remember.Auth (sampleCfg (failingStorer (.New "db down"))) (freshBackend ()) emptyStorer
      emptyStorer (goStr "YWxpY2U7eA==")).ret = ([], some (.New "db down")) ∧
    (Remember.Auth (sampleCfg (failingStorer (.New "db down"))) (freshBackend ()) emptyStorer
      emptyStorer (goStr "YWxpY2U=")).sstorer = emptyStorer :=
  ⟨rfl,
    (C9_Auth_failure_leaves_session (sampleCfg (failingStorer (.New "db down")))
      (freshBackend ()) emptyStorer emptyStorer (goStr "YWxpY2U7eA==")).1
      (goStr "alice;x") (.New "db down") rfl (by decide) rfl (by decide),
    ((C9_Auth_failure_leaves_session (sampleCfg (failingStorer (.New "db down")))
      (freshBackend ()) emptyStorer emptyStorer (goStr "YWxpY2U=")).2
      (by
        rintro ⟨b, hdec, hmem, -⟩
        have hb : b = goStr "alice" := by
          have h2 : base64.URLEncoding.DecodeString (goStr "YWxpY2U=") = .ok (goStr "alice") := rfl
          rw [h2] at hdec
          exact (Except.ok.inj hdec).symm
        subst hb
        exact absurd hmem (by decide))).1⟩

/-- C10: for every artifact whose URL-safe base64 decoding `b` holds a `;`,
`Auth` makes exactly one call on the `TokenStorer`, `UseToken(key, verifier)`,
where `key` is the part of `b` before its first `;` and `verifier` is the
standard base64 text of the MD5 digest of all of `b`; `New` stores the same
function of its buffer `ownerKey ++ ";" ++ r` under `ownerKey`; so for a token
issued for an owner key that itself holds a `;`, `Auth` looks up a key that is
a strict initial part of the owner key that `AddToken` was given. -/
theorem C10_Auth_lookup_key {σ : Type} (cfg : Authboss σ) (bk : Backend σ)
    (cstorer sstorer : ClientStorer) :
    (∀ artifact b, base64.URLEncoding.DecodeString artifact = .ok b → Remember.delim ∈ b →
      ∃ key rest, b = key ++ goStr ";" ++ rest ∧ Remember.delim ∉ key ∧
        (Remember.Auth cfg bk cstorer sstorer artifact).backend.calls =
          bk.calls ++ [.UseToken key (base64.StdEncoding.EncodeToString (md5.Sum b))]) ∧
    (∀ ownerKey r, r.length = 32 →
      (Remember.New cfg (.ok r) bk cstorer ownerKey).backend.calls =
        bk.calls ++ [.AddToken ownerKey
          (base64.StdEncoding.EncodeToString (md5.Sum (ownerKey ++ goStr ";" ++ r)))]) ∧
    (∀ ownerKey r, r.length = 32 → Remember.delim ∈ ownerKey →
      (Remember.New cfg (.ok r) bk cstorer ownerKey).ret.2 = none →
      ∃ key rest, ownerKey = key ++ goStr ";" ++ rest ∧ key ≠ ownerKey ∧
        (Remember.Auth cfg (Remember.New cfg (.ok r) bk cstorer ownerKey).backend
          (Remember.New cfg (.ok r) bk cstorer ownerKey).cstorer sstorer
          (Remember.New cfg (.ok r) bk cstorer ownerKey).ret.1).backend.calls =
          bk.calls ++
            [.AddToken ownerKey
              (base64.StdEncoding.EncodeToString (md5.Sum (ownerKey ++ goStr ";" ++ r))),
             .UseToken key
              (base64.StdEncoding.EncodeToString (md5.Sum (ownerKey ++ goStr ";" ++ r)))]) := by
  have hauth : ∀ (bk1 : Backend σ) (cs : ClientStorer) (artifact b : GoString),
      base64.URLEncoding.DecodeString artifact = .ok b → Remember.delim ∈ b →
      (Remember.Auth cfg bk1 cs sstorer artifact).backend.calls =
        bk1.calls ++ [.UseToken (b.take (b.indexOf Remember.delim))
          (base64.StdEncoding.EncodeToString (md5.Sum b))] := by
    intro bk1 cs artifact b hdec hmem
    rw [Remember.Auth_decoded cfg bk1 cs sstorer artifact b hdec hmem]
    cases (cfg.Storer.UseToken bk1.db (b.take (b.indexOf Remember.delim))
      (Remember.verifierOf b)).2.2 <;> rfl
  have hnew : ∀ ownerKey r, r.length = 32 →
      (Remember.New cfg (.ok r) bk cstorer ownerKey).backend.calls =
        bk.calls ++ [.AddToken ownerKey
          (base64.StdEncoding.EncodeToString (md5.Sum (ownerKey ++ goStr ";" ++ r)))] := by
    intro ownerKey r hr
    rw [Remember.New_ok cfg bk cstorer ownerKey r hr]
    simp only [goStr_semicolon, List.append_assoc, List.singleton_append]
    cases (cfg.Storer.AddToken bk.db ownerKey
      (Remember.verifierOf (ownerKey ++ Remember.delim :: r))).2 <;> rfl
  refine ⟨?_, hnew, ?_⟩
  · intro artifact b hdec hmem
    obtain ⟨rest, hsplit, hnot⟩ := split_at_first b Remember.delim hmem
    refine ⟨b.take (b.indexOf Remember.delim), rest, ?_, hnot, hauth bk cstorer artifact b hdec hmem⟩
    simpa only [goStr_semicolon, List.append_assoc, List.singleton_append] using hsplit
  · intro ownerKey r hr hmem hok
    obtain ⟨rest, hsplit, hnot⟩ := split_at_first ownerKey Remember.delim hmem
    have hart : (Remember.New cfg (.ok r) bk cstorer ownerKey).ret.1 =
        base64.URLEncoding.EncodeToString (ownerKey ++ Remember.delim :: r) := by
      rw [Remember.New_ok cfg bk cstorer ownerKey r hr] at hok ⊢
      cases hadd : (cfg.Storer.AddToken bk.db ownerKey
        (Remember.verifierOf (ownerKey ++ Remember.delim :: r))).2 with
      | none => rfl
      | some e => rw [hadd] at hok; simp at hok
    have hmem2 : Remember.delim ∈ ownerKey ++ Remember.delim :: r := by simp
    have hidx : (ownerKey ++ Remember.delim :: r).take
        ((ownerKey ++ Remember.delim :: r).indexOf Remember.delim) =
        ownerKey.take (ownerKey.indexOf Remember.delim) := by
      rw [List.indexOf_append_of_mem hmem]
      rw [List.take_append_of_le_length (Nat.le_of_lt (List.indexOf_lt_length.mpr hmem))]
    refine ⟨ownerKey.take (ownerKey.indexOf Remember.delim), rest, ?_, ?_, ?_⟩
    · simpa only [goStr_semicolon, List.append_assoc, List.singleton_append] using hsplit
    · intro heq
      rw [heq] at hnot
      exact hnot hmem
    · rw [hauth _ _ _ _ (by rw [hart]; exact base64.DecodeString_EncodeToString _) hmem2, hidx,
        hnew ownerKey r hr]
      simp only [goStr_semicolon, List.append_assoc, List.singleton_append, List.cons_append,
        List.nil_append]

/-- Witness of C10: a token issued for the owner key `a;b` is looked up under
the key `a`. -/
theorem C10_Auth_lookup_key_witness :
    (List.replicate 32 (0 : UInt8)).length = 32 ∧ Remember.delim ∈ goStr "a;b" ∧
    base64.URLEncoding.DecodeString (goStr "YWxpY2U7eA==") = .ok (goStr "alice;x") ∧
    Remember.delim ∈ goStr "alice;x" ∧
    (∃ key rest, goStr "alice;x" = key ++ goStr ";" ++ rest ∧ Remember.delim ∉ key ∧
      (Remember.Auth (sampleCfg singleUseStorer) (freshBackend []) emptyStorer emptyStorer
        (goStr "YWxpY2U7eA==")).backend.calls =
        (freshBackend ([] : List (GoString × GoString))).calls ++
          [.UseToken key (base64.StdEncoding.EncodeToString (md5.Sum (goStr "alice;x")))]) ∧
    (Remember.New (sampleCfg singleUseStorer) (.ok (List.replicate 32 0)) (freshBackend [])
      emptyStorer (goStr "a;b")).backend.calls =
      (freshBackend ([] : List (GoString × GoString))).calls ++
        [.AddToken (goStr "a;b") (base64.StdEncoding.EncodeToString
          (md5.Sum (goStr "a;b" ++ goStr ";" ++ List.replicate 32 0)))] ∧
    (Remember.New (sampleCfg singleUseStorer) (.ok (List.replicate 32 0)) (freshBackend [])
      emptyStorer (goStr "a;b")).ret.2 = none ∧
    ∃ key rest, goStr "a;b" = key ++ goStr ";" ++ rest ∧ key ≠ goStr "a;b" ∧
      (Remember.Auth (sampleCfg singleUseStorer)
        (Remember.New (sampleCfg singleUseStorer) (.ok (List.replicate 32 0)) (freshBackend [])
          emptyStorer (goStr "a;b")).backend
        (Remember.New (sampleCfg singleUseStorer) (.ok (List.replicate 32 0)) (freshBackend [])
          emptyStorer (goStr "a;b")).cstorer emptyStorer
        (Remember.New (sampleCfg singleUseStorer) (.ok (List.replicate 32 0)) (freshBackend [])
          emptyStorer (goStr "a;b")).ret.1).backend.calls =
        (freshBackend ([] : List (GoString × GoString))).calls ++
          [.AddToken (goStr "a;b") (base64.StdEncoding.EncodeToString
            (md5.Sum (goStr "a;b" ++ goStr ";" ++ List.replicate 32 0))),
           .UseToken key (base64.StdEncoding.EncodeToString
            (md5.Sum (goStr "a;b" ++ goStr ";" ++ List.replicate 32 0)))] :=
  ⟨by decide, by decide, rfl, by decide,
    (C10_Auth_lookup_key (sampleCfg singleUseStorer) (freshBackend []) emptyStorer
      emptyStorer).1 (goStr "YWxpY2U7eA==") (goStr "alice;x") rfl (by decide),
    (C10_Auth_lookup_key (sampleCfg singleUseStorer) (freshBackend []) emptyStorer
      emptyStorer).2.1 (goStr "a;b") (List.replicate 32 0) (by decide),
    rfl,
    (C10_Auth_lookup_key (sampleCfg singleUseStorer) (freshBackend []) emptyStorer
      emptyStorer).2.2 (goStr "a;b") (List.replicate 32 0) (by decide) (by decide) rfl⟩
